import Mathlib

/-!
Verification development for the CSV column-profiling analyzer
(`src/analytics/csv_analyzer.py`) and the storage-wrapper scalar coercion
(`src/n8n/supaBaseCsvParser.py`).

The Python source is shallowly embedded: pure functions become Lean
functions, the single-pass accumulation loop becomes folds over the row
list, fallible operations (file lookup, `ZeroDivisionError`, the loader's
possible exceptions) return `Option`.  Machine-level caveats of the
embedding, stated once here:

* strings are Lean `String`s, and the Python string primitives
  (`strip`, `startswith`, `split`, `lower`, `in`) are re-implemented by
  structural recursion over `String.data` so that every definition is
  kernel-executable; `strip` and `isdigit` are modelled over ASCII
  (exotic Unicode whitespace and digits are out of scope);
* Python `float(...)`'s IEEE value is never needed by any claim, so only
  the *success* of float parsing is modelled (and, in the storage wrapper,
  the accepted text is carried along), while true division is modelled
  exactly over `ℚ` with `ZeroDivisionError` as `Option.none`;
* `csv.reader` is modelled per physical line (RFC-4180 quoting with `""`
  escapes inside quoted fields; fields with embedded newlines are out of
  scope, and no claim exercises quoting at all).
-/

namespace CsvAnalyzer

/-- Characters removed by Python `str.strip()` at either end, restricted
to ASCII whitespace. -/
def trimChars (cs : List Char) : List Char :=
  ((cs.dropWhile Char.isWhitespace).reverse.dropWhile Char.isWhitespace).reverse

/-- Python `value.strip()`. -/
def pyStrip (s : String) : String := ⟨trimChars s.toList⟩

/-- Is the first list a prefix of the second?  Helper for Python
`str.startswith` and `in`. -/
def leadsWith : List Char → List Char → Bool
  | [], _ => true
  | _ :: _, [] => false
  | p :: ps, c :: cs => p = c && leadsWith ps cs

/-- Python `s.startswith(p)`. -/
def pyStartsWith (s p : String) : Bool := leadsWith p.toList s.toList

/-- Does `needle` occur inside `hay`?  Helper for Python `p in s`. -/
def occursIn (hay needle : List Char) : Bool :=
  match hay with
  | [] => leadsWith needle []
  | _ :: t => leadsWith needle hay || occursIn t needle

/-- Python `p in s` on strings. -/
def containsStr (s p : String) : Bool := occursIn s.toList p.toList

/-- Python `s.split(sep)` for a one-character separator (the source only
splits on `"/"`). -/
def splitChar (sep : Char) : List Char → List (List Char)
  | [] => [[]]
  | c :: cs =>
    let r := splitChar sep cs
    if c = sep then [] :: r
    else
      match r with
      | h :: t => (c :: h) :: t
      | [] => [[c]]

/-- Python `s.lower()` (ASCII). -/
def lowerStr (s : String) : String := ⟨s.toList.map Char.toLower⟩

/-- IGNORE_PATTERNS from the source: columns to ignore in the main
analysis. -/
def IGNORE_PATTERNS : List String := ["Cosponsor"]

/-- Function `should_ignore_column` from the source: some ignore pattern
occurs in the column name. -/
def should_ignore_column (c : String) : Bool :=
  IGNORE_PATTERNS.any (fun p => containsStr c p)

/-- Tail of a digit run accepted by CPython `int(str)`: decimal digits in
which a single underscore may stand between two digits. -/
def intTail : List Char → Bool
  | [] => true
  | '_' :: c :: cs => c.isDigit && intTail cs
  | ['_'] => false
  | c :: cs => c.isDigit && intTail cs

/-- A nonempty digit run accepted by CPython `int(str)` after the
optional sign. -/
def intDigits : List Char → Bool
  | c :: cs => c.isDigit && intTail cs
  | [] => false

/-- Success of Python `int(value)` on an already-stripped string (both
call sites in the source pass stripped values): an optional sign followed
by decimal digits, single underscores allowed between digits. -/
def pyIntParsable (s : String) : Bool :=
  match s.toList with
  | '+' :: cs => intDigits cs
  | '-' :: cs => intDigits cs
  | cs => intDigits cs

/-- Consume a leading digit run (single underscores allowed between
digits), returning the unconsumed remainder.  Helper for the Python
`float` grammar. -/
def eatDigits : List Char → List Char
  | '_' :: c :: cs => if c.isDigit then eatDigits cs else '_' :: c :: cs
  | c :: cs => if c.isDigit then eatDigits cs else c :: cs
  | [] => []

/-- Mantissa of the Python `float` grammar: `D`, `D.`, `D.D` or `.D`
where `D` is a digit run; returns the remainder when the mantissa is
well-formed. -/
def floatMantissa : List Char → Option (List Char)
  | '.' :: cs =>
    match cs with
    | c :: _ => if c.isDigit then some (eatDigits cs) else none
    | [] => none
  | c :: cs =>
    if c.isDigit then
      match eatDigits (c :: cs) with
      | '.' :: cs2 =>
        match cs2 with
        | c2 :: _ => if c2.isDigit then some (eatDigits cs2) else some cs2
        | [] => some []
      | r => some r
    else none
  | [] => none

/-- Optional exponent part of the Python `float` grammar, which must
consume the whole remainder. -/
def floatExpo : List Char → Bool
  | [] => true
  | c :: cs =>
    if c = 'e' ∨ c = 'E' then
      let cs2 := match cs with
        | '+' :: r => r
        | '-' :: r => r
        | r => r
      match cs2 with
      | d :: _ => d.isDigit && (eatDigits cs2).isEmpty
      | [] => false
    else false

/-- Success of Python `float(value)` on an already-stripped string: an
optional sign, then `inf`, `infinity` or `nan` (case-insensitive) or a
decimal mantissa with an optional exponent. -/
def pyFloatParsable (s : String) : Bool :=
  let cs := match s.toList with
    | '+' :: r => r
    | '-' :: r => r
    | r => r
  let low := cs.map Char.toLower
  if low = "inf".toList ∨ low = "infinity".toList ∨ low = "nan".toList then true
  else
    match floatMantissa cs with
    | some r => floatExpo r
    | none => false

/-- Date heuristic of `infer_type` in the source: the value contains a
slash, is exactly ten characters long, and splits on `/` into exactly
three parts that are all nonempty digit strings (Python `str.isdigit`). -/
def isDateLike (v : String) : Bool :=
  v.toList.any (fun c => c = '/') && v.toList.length == 10 &&
    (let parts := splitChar '/' v.toList
     parts.length == 3 && parts.all (fun p => !p.isEmpty && p.all Char.isDigit))

/-- Function `infer_type` from `csv_analyzer.py`: classify one scalar
cell value into a type tag, first matching rule wins. -/
def infer_type (value : String) : String :=
  if value = "" ∨ pyStrip value = "" then "empty"
  else
    let v := pyStrip value
    if pyStartsWith v "http://" || pyStartsWith v "https://" then "url"
    else if isDateLike v then "date"
    else if pyIntParsable v then "integer"
    else if pyFloatParsable v then "float"
    else "string"

/-- Modelled from the spec: claim C5's "base-10 integer literal", an
optional leading sign followed by decimal digits only, with no decimal
point, no exponent and no digit-group separators. -/
def isIntegerLiteral (s : String) : Bool :=
  match s.toList with
  | '+' :: cs => !cs.isEmpty && cs.all Char.isDigit
  | '-' :: cs => !cs.isEmpty && cs.all Char.isDigit
  | cs => !cs.isEmpty && cs.all Char.isDigit

/-- Per-column statistics record, one entry of the `stats` dictionary in
`analyze_csv`.  The `types` histogram and the bounded sample list keep
insertion order, like the Python `defaultdict` and list. -/
structure ColumnStat where
  total : Nat
  filled : Nat
  empty : Nat
  types : List (String × Nat)
  sample_values : List String
deriving DecidableEq

/-- Increment of a `defaultdict(int)` entry: bump key `k` in an
insertion-ordered association list. -/
def bump : List (String × Nat) → String → List (String × Nat)
  | [], k => [(k, 1)]
  | (k', v) :: rest, k =>
    if k' = k then (k', v + 1) :: rest else (k', v) :: bump rest k

/-- Lookup in an insertion-ordered association list, defaulting to 0
(reading a `defaultdict(int)` without mutating it). -/
def lookupD : List (String × Nat) → String → Nat
  | [], _ => 0
  | (k', v) :: rest, k => if k' = k then v else lookupD rest k

/-- Sum of the counts of a histogram. -/
def typesTotal : List (String × Nat) → Nat
  | [] => 0
  | (_, v) :: rest => v + typesTotal rest

/-- Sample truncation in `analyze_csv`:
`value[:80] + "..." if len(value) > 80 else value`. -/
def truncateSample (v : String) : String :=
  if v.toList.length > 80 then (⟨v.toList.take 80⟩ : String) ++ "..." else v

/-- The zero-initialised per-column record of `analyze_csv`. -/
def initStat : ColumnStat := ⟨0, 0, 0, [], []⟩

/-- One row's update of one column's statistics (`analyze_csv`): bump
`total`; a non-blank cell bumps `filled`, its inferred type and possibly
the bounded sample list; a blank cell bumps `empty` and the `empty`
type counter. -/
def stepStat (st : ColumnStat) (value : String) : ColumnStat :=
  if value ≠ "" ∧ pyStrip value ≠ "" then
    { st with
      total := st.total + 1
      filled := st.filled + 1
      types := bump st.types (infer_type value)
      sample_values :=
        if st.sample_values.length < 3 then
          let sample := truncateSample value
          if sample ∈ st.sample_values then st.sample_values
          else st.sample_values ++ [sample]
        else st.sample_values }
  else
    { st with
      total := st.total + 1
      empty := st.empty + 1
      types := bump st.types "empty" }

/-- The de-duplicated, ignore-filtered relevant header list of
`analyze_csv`: keep the first occurrence of each distinct name, skipping
the literal tag name `billSubjectTerm` and names matching the ignore
patterns.  The first component of the accumulator is the `seen` set, the
second the output list. -/
def relevantHeaders (hs : List String) : List String :=
  (hs.foldl
    (fun (acc : List String × List String) h =>
      if h ∉ acc.1 ∧ h ≠ "billSubjectTerm" ∧ should_ignore_column h = false then
        (h :: acc.1, acc.2 ++ [h])
      else acc)
    ([], [])).2

/-- The cell `analyze_csv` uses for relevant column `c` in a row: the
value at the first header position named `c` (via the `row_dict`
construction), or `""` when the row is shorter than that position. -/
def cellFor (hs : List String) (row : List String) (c : String) : String :=
  match hs.findIdx? (fun h => h == c) with
  | some i => row.getD i ""
  | none => ""

/-- Indices of all header occurrences equal to `name` (the
`subject_term_indices` / `cosponsor_indices` comprehensions). -/
def idxsOf (hs : List String) (name : String) : List Nat :=
  (hs.enum.filter (fun p => p.2 == name)).map Prod.fst

/-- Positions of the repeated tag field `billSubjectTerm`. -/
def subjectIdxs (hs : List String) : List Nat := idxsOf hs "billSubjectTerm"

/-- Positions of the repeated occurrence field `Cosponsor`. -/
def cosponsorIdxs (hs : List String) : List Nat := idxsOf hs "Cosponsor"

/-- The guard `idx < len(row) and row_values[idx] and
row_values[idx].strip()` of the specialised counters. -/
def cellPresent (row : List String) (i : Nat) : Bool :=
  decide (i < row.length) && !(row.getD i "" == "") && !(pyStrip (row.getD i "") == "")

/-- The number of tag occurrence-columns in which a row carries the
trimmed non-empty value `t` — the per-row contribution to the tag
frequency of `t`. -/
def rowTagCount (hs : List String) (row : List String) (t : String) : Nat :=
  ((subjectIdxs hs).filter
    (fun i => cellPresent row i && (pyStrip (row.getD i "") == t))).length

/-- One row's update of the tag-frequency `defaultdict`
(`subject_term_counts[term] += 1` for every non-blank occurrence
column). -/
def rowSubjectStep (hs : List String) (m : List (String × Nat))
    (row : List String) : List (String × Nat) :=
  (subjectIdxs hs).foldl
    (fun m' i => if cellPresent row i then bump m' (pyStrip (row.getD i "")) else m') m

/-- Does a row have at least one non-blank tag occurrence
(`if row_subject_terms:`)? -/
def rowHasSubject (hs : List String) (row : List String) : Bool :=
  (subjectIdxs hs).any (fun i => cellPresent row i)

/-- The per-row cosponsor occurrence count (`row_cosponsors`). -/
def rowCosponsors (hs : List String) (row : List String) : Nat :=
  ((cosponsorIdxs hs).filter (fun i => cellPresent row i)).length

/-- The result record of `analyze_csv`. -/
structure Analysis where
  total_rows : Nat
  columns : List (String × ColumnStat)
  relevant_headers : List String
  subject_terms : List (String × Nat)
  bills_with_subject_terms : Nat
  bills_with_cosponsors : Nat
  total_cosponsors : Nat
  avg_per_bill : ℚ
deriving DecidableEq

/-- The single pass of `analyze_csv` over the parsed header and data
rows.  Each accumulator of the Python loop depends only on itself and
the current row, so the loop is modelled as one fold per accumulator. -/
def analyze (hs : List String) (rows : List (List String)) : Analysis :=
  let rel := relevantHeaders hs
  let cols := rows.foldl
    (fun sts row => sts.map (fun p => (p.1, stepStat p.2 (cellFor hs row p.1))))
    (rel.map (fun c => (c, initStat)))
  let terms := rows.foldl (fun m row => rowSubjectStep hs m row) []
  let bwst := rows.foldl (fun n row => if rowHasSubject hs row then n + 1 else n) 0
  let bwc := rows.foldl (fun n row => if rowCosponsors hs row > 0 then n + 1 else n) 0
  let tc := rows.foldl
    (fun n row => if rowCosponsors hs row > 0 then n + rowCosponsors hs row else n) 0
  { total_rows := rows.length
    columns := cols
    relevant_headers := rel
    subject_terms := terms
    bills_with_subject_terms := bwst
    bills_with_cosponsors := bwc
    total_cosponsors := tc
    avg_per_bill := if bwc > 0 then (tc : ℚ) / (bwc : ℚ) else 0 }

/-- Parser mode for one line of RFC-4180 CSV: outside quotes, inside a
quoted section, or just after a quote character inside a quoted section
(which either doubles to a literal quote or closes the section). -/
inductive CsvMode where
  | plain
  | quoted
  | closing

/-- One line of RFC-4180 CSV, as parsed by Python `csv.reader`
(fields without embedded newlines): state machine over the characters,
with the mode, the current field and the finished fields. -/
def parseCsvAux : List Char → CsvMode → List Char → List String → List String
  | [], _, cur, acc => acc ++ [⟨cur⟩]
  | c :: cs, .quoted, cur, acc =>
    if c = '"' then parseCsvAux cs .closing cur acc
    else parseCsvAux cs .quoted (cur ++ [c]) acc
  | c :: cs, .closing, cur, acc =>
    if c = '"' then parseCsvAux cs .quoted (cur ++ ['"']) acc
    else if c = ',' then parseCsvAux cs .plain [] (acc ++ [⟨cur⟩])
    else parseCsvAux cs .plain (cur ++ [c]) acc
  | c :: cs, .plain, cur, acc =>
    if c = ',' then parseCsvAux cs .plain [] (acc ++ [⟨cur⟩])
    else if c = '"' ∧ cur = [] then parseCsvAux cs .quoted cur acc
    else parseCsvAux cs .plain (cur ++ [c]) acc

/-- Parse one CSV line; a blank line yields no fields, as in
`csv.reader`. -/
def parseCsvLine (s : String) : List String :=
  if s = "" then [] else parseCsvAux s.toList .plain [] []

/-- The loader of `analyze_csv`: skip three metadata lines, parse the
next line as the header, parse the rest as data rows.  `none` models the
exceptions the loader can raise before any aggregation happens (fewer
than four lines: `StopIteration`; blank header line: `IndexError` on
`list(csv.reader([header_line]))[0]`). -/
def analyzeFile (lines : List String) : Option Analysis :=
  if lines.length < 4 then none
  else if lines.getD 3 "" = "" then none
  else some (analyze (parseCsvLine (lines.getD 3 "")) ((lines.drop 4).map parseCsvLine))

/-- Fill-rate of a column as computed by `print_report`:
`(filled / total) * 100 if total > 0 else 0`, with Python true division
modelled exactly over the rationals. -/
def fill_rate (st : ColumnStat) : ℚ :=
  if st.total > 0 then ((st.filled : ℚ) / (st.total : ℚ)) * 100 else 0

/-- The four fill-rate buckets of `print_report`. -/
inductive Bucket where
  | always
  | mostly
  | sometimes
  | rarely
deriving DecidableEq

/-- The bucket a column is appended to by the `if/elif` chain of
`print_report`. -/
def bucketOf (st : ColumnStat) : Bucket :=
  if fill_rate st = 100 then .always
  else if fill_rate st ≥ 90 then .mostly
  else if fill_rate st ≥ 50 then .sometimes
  else .rarely

/-- Python true division, with `ZeroDivisionError` as `none`. -/
def pyDiv (a b : ℚ) : Option ℚ := if b = 0 then none else some (a / b)

/-- The data `print_report` computes: the four fill-rate bucket lists
(in column iteration order) and the two percentages it derives by
unguarded division by `total_rows`
(`cosponsor_stats['bills_with_cosponsors']/total_rows*100` and
`bills_with_terms/total_rows*100`). -/
structure Report where
  always_filled : List String
  mostly_filled : List String
  sometimes_filled : List String
  rarely_filled : List String
  cosponsor_pct : ℚ
  subject_pct : ℚ
deriving DecidableEq

/-- Function `print_report` reduced to the data it computes; `none`
models a `ZeroDivisionError` aborting report generation (the dominant
type, bar chart and schema text are pure formatting of the same data and
carry no additional computation a claim depends on). -/
def print_report (a : Analysis) : Option Report :=
  let alw := (a.columns.filter (fun p => bucketOf p.2 = .always)).map Prod.fst
  let mos := (a.columns.filter (fun p => bucketOf p.2 = .mostly)).map Prod.fst
  let som := (a.columns.filter (fun p => bucketOf p.2 = .sometimes)).map Prod.fst
  let rar := (a.columns.filter (fun p => bucketOf p.2 = .rarely)).map Prod.fst
  match pyDiv (a.bills_with_cosponsors : ℚ) (a.total_rows : ℚ),
        pyDiv (a.bills_with_subject_terms : ℚ) (a.total_rows : ℚ) with
  | some cp, some sp => some ⟨alw, mos, som, rar, cp * 100, sp * 100⟩
  | _, _ => none

/-- Outcome of one run of `main` on a resolved path: the exit code, the
path named in a `FileNotFoundError` diagnostic (if any), and whether any
report output was emitted before the run ended. -/
structure MainResult where
  exitCode : Nat
  diagnosticPath : Option String
  reportStarted : Bool
deriving DecidableEq

/-- The `try/except` driver of `main`, abstracted over a file system
`fs` mapping a path to its lines when the file exists:
a `FileNotFoundError` prints the path and exits 1 with no report output;
any other failure of the analysis pass exits 1 before `print_report`
runs; a `ZeroDivisionError` inside `print_report` exits 1 after report
output has begun; otherwise the full report is produced and the process
exits 0. -/
def runMain (fs : String → Option (List String)) (path : String) : MainResult :=
  match fs path with
  | none => ⟨1, some path, false⟩
  | some lines =>
    match analyzeFile lines with
    | none => ⟨1, none, false⟩
    | some a =>
      match print_report a with
      | none => ⟨1, none, true⟩
      | some _ => ⟨0, none, true⟩

end CsvAnalyzer

namespace N8n

/-- A Python scalar as produced by `_infer_type` in
`supaBaseCsvParser.py`.  The float constructor carries the accepted
numeric text; the IEEE value itself is not needed by any claim. -/
inductive PyVal where
  | nullV
  | boolV (b : Bool)
  | intV (n : Int)
  | floatV (s : String)
  | strV (s : String)
deriving DecidableEq

/-- Numeric value of a digit run, skipping the underscores Python
allows between digits. -/
def digitsVal (cs : List Char) : Nat :=
  cs.foldl (fun n c => if c.isDigit then n * 10 + (c.toNat - '0'.toNat) else n) 0

/-- Value of a successful Python `int(s)` parse. -/
def pyParseInt (s : String) : Int :=
  match s.toList with
  | '+' :: cs => (digitsVal cs : Int)
  | '-' :: cs => -(digitsVal cs : Int)
  | cs => (digitsVal cs : Int)

/-- Function `_infer_type` from `supaBaseCsvParser.py`: coerce one
string scalar, first matching rule wins (null-like tokens, then
boolean-like tokens, then `int`, then `float`, else the string itself). -/
def infer_type (value : String) : PyVal :=
  if value = "" then .nullV
  else if CsvAnalyzer.lowerStr value = "null" ∨ CsvAnalyzer.lowerStr value = "none" ∨
      CsvAnalyzer.lowerStr value = "nil" then .nullV
  else if CsvAnalyzer.lowerStr value = "true" ∨ CsvAnalyzer.lowerStr value = "yes" ∨
      CsvAnalyzer.lowerStr value = "1" then .boolV true
  else if CsvAnalyzer.lowerStr value = "false" ∨ CsvAnalyzer.lowerStr value = "no" ∨
      CsvAnalyzer.lowerStr value = "0" then .boolV false
  else if CsvAnalyzer.pyIntParsable value then .intV (pyParseInt value)
  else if CsvAnalyzer.pyFloatParsable value then .floatV value
  else .strV value

end N8n

namespace CsvAnalyzer

theorem stepStat_total (st : ColumnStat) (v : String) :
    (stepStat st v).total = st.total + 1 := by
  unfold stepStat; split <;> rfl

theorem stepStat_filled_add_empty (st : ColumnStat) (v : String) :
    (stepStat st v).filled + (stepStat st v).empty = st.filled + st.empty + 1 := by
  unfold stepStat; split <;> dsimp <;> omega

theorem typesTotal_bump (m : List (String × Nat)) (k : String) :
    typesTotal (bump m k) = typesTotal m + 1 := by
  induction m with
  | nil => rfl
  | cons p rest ih =>
    obtain ⟨k', v⟩ := p
    by_cases h : k' = k
    · simp only [bump, if_pos h, typesTotal]; omega
    · simp only [bump, if_neg h, typesTotal, ih]; omega

theorem stepStat_typesTotal (st : ColumnStat) (v : String) :
    typesTotal (stepStat st v).types = typesTotal st.types + 1 := by
  unfold stepStat; split <;> dsimp <;> rw [typesTotal_bump]

/-- Commuting the row-major update of the whole stats dictionary with the
per-column fold: each column's record is obtained by folding the rows on
that column alone. -/
theorem foldl_map_stats (hs : List String) :
    ∀ (rows : List (List String)) (L : List (String × ColumnStat)),
      rows.foldl
          (fun sts row => sts.map (fun p => (p.1, stepStat p.2 (cellFor hs row p.1)))) L
        = L.map
            (fun p => (p.1, rows.foldl (fun st row => stepStat st (cellFor hs row p.1)) p.2)) := by
  intro rows
  induction rows with
  | nil => intro L; simp
  | cons r rows ih =>
    intro L
    simp only [List.foldl_cons]
    rw [ih, List.map_map]
    rfl

theorem analyze_columns (hs : List String) (rows : List (List String)) :
    (analyze hs rows).columns =
      (relevantHeaders hs).map
        (fun c => (c, rows.foldl (fun st row => stepStat st (cellFor hs row c)) initStat)) := by
  have h0 : (analyze hs rows).columns
      = rows.foldl
          (fun sts row => sts.map (fun p => (p.1, stepStat p.2 (cellFor hs row p.1))))
          ((relevantHeaders hs).map (fun c => (c, initStat))) := rfl
  rw [h0, foldl_map_stats, List.map_map]
  rfl

theorem colStat_inv (hs : List String) (c : String) :
    ∀ (rows : List (List String)) (st : ColumnStat),
      (rows.foldl (fun a row => stepStat a (cellFor hs row c)) st).total
          = st.total + rows.length ∧
      (rows.foldl (fun a row => stepStat a (cellFor hs row c)) st).filled +
          (rows.foldl (fun a row => stepStat a (cellFor hs row c)) st).empty
          = st.filled + st.empty + rows.length ∧
      typesTotal (rows.foldl (fun a row => stepStat a (cellFor hs row c)) st).types
          = typesTotal st.types + rows.length := by
  intro rows
  induction rows with
  | nil => intro st; simp
  | cons r rows ih =>
    intro st
    simp only [List.foldl_cons, List.length_cons]
    obtain ⟨h1, h2, h3⟩ := ih (stepStat st (cellFor hs r c))
    have e1 := stepStat_total st (cellFor hs r c)
    have e2 := stepStat_filled_add_empty st (cellFor hs r c)
    have e3 := stepStat_typesTotal st (cellFor hs r c)
    exact ⟨by omega, by omega, by omega⟩

/-- The sample list of one `stepStat` update: unchanged, or extended by
the truncated value when there was room and the sample was new. -/
theorem stepStat_samples (st : ColumnStat) (x : String) :
    (stepStat st x).sample_values = st.sample_values ∨
    ((stepStat st x).sample_values = st.sample_values ++ [truncateSample x] ∧
      st.sample_values.length < 3 ∧ truncateSample x ∉ st.sample_values) := by
  unfold stepStat
  by_cases h1 : x ≠ "" ∧ pyStrip x ≠ ""
  · rw [if_pos h1]
    dsimp only
    by_cases h2 : st.sample_values.length < 3
    · rw [if_pos h2]
      by_cases h3 : truncateSample x ∈ st.sample_values
      · left; rw [if_pos h3]
      · right; exact ⟨by rw [if_neg h3], h2, h3⟩
    · left; rw [if_neg h2]
  · left; rw [if_neg h1]

theorem samples_fold_inv (hs : List String) (c : String) (Q : String → Prop) :
    ∀ (rows : List (List String)) (st : ColumnStat),
      (∀ r ∈ rows, Q (truncateSample (cellFor hs r c))) →
      st.sample_values.length ≤ 3 → st.sample_values.Nodup →
      (∀ s ∈ st.sample_values, Q s) →
      (rows.foldl (fun a row => stepStat a (cellFor hs row c)) st).sample_values.length ≤ 3 ∧
      (rows.foldl (fun a row => stepStat a (cellFor hs row c)) st).sample_values.Nodup ∧
      ∀ s ∈ (rows.foldl (fun a row => stepStat a (cellFor hs row c)) st).sample_values, Q s := by
  intro rows
  induction rows with
  | nil => intro st _ hl hn hq; exact ⟨hl, hn, hq⟩
  | cons r rows ih =>
    intro st hQ hl hn hq
    simp only [List.foldl_cons]
    have hstep := stepStat_samples st (cellFor hs r c)
    have h1 : (stepStat st (cellFor hs r c)).sample_values.length ≤ 3 := by
      rcases hstep with h | ⟨h, hlen, -⟩
      · rw [h]; exact hl
      · rw [h, List.length_append, List.length_singleton]; omega
    have h2 : (stepStat st (cellFor hs r c)).sample_values.Nodup := by
      rcases hstep with h | ⟨h, -, hmem⟩
      · rw [h]; exact hn
      · rw [h]
        simp only [List.nodup_append, List.nodup_singleton, true_and,
          List.disjoint_singleton]
        exact ⟨hn, hmem⟩
    have h3 : ∀ s ∈ (stepStat st (cellFor hs r c)).sample_values, Q s := by
      intro s hs'
      rcases hstep with h | ⟨h, -, -⟩
      · rw [h] at hs'; exact hq s hs'
      · rw [h] at hs'
        rcases List.mem_append.1 hs' with h' | h'
        · exact hq s h'
        · rw [List.mem_singleton.1 h']; exact hQ r (List.mem_cons_self r rows)
    exact ih (stepStat st (cellFor hs r c))
      (fun r' hr' => hQ r' (List.mem_cons_of_mem _ hr')) h1 h2 h3

theorem lookupD_bump (m : List (String × Nat)) (k t : String) :
    lookupD (bump m k) t = lookupD m t + (if k = t then 1 else 0) := by
  induction m with
  | nil =>
    simp only [bump, lookupD]
    split <;> simp_all
  | cons p rest ih =>
    obtain ⟨k', v⟩ := p
    by_cases h : k' = k
    · subst h
      simp only [bump, if_pos rfl, lookupD]
      by_cases h2 : k' = t <;> simp [h2]
    · simp only [bump, if_neg h, lookupD]
      by_cases h2 : k' = t
      · have hkt : k ≠ t := fun ht => h (by rw [h2, ht])
        simp [h2, hkt]
      · simp [h2, ih]

theorem lookupD_rowSubjectStep (hs : List String) (row : List String) (t : String) :
    ∀ m, lookupD (rowSubjectStep hs m row) t = lookupD m t + rowTagCount hs row t := by
  unfold rowSubjectStep rowTagCount
  generalize subjectIdxs hs = l
  induction l with
  | nil => intro m; simp
  | cons i l ih =>
    intro m
    by_cases hc : cellPresent row i
    · by_cases ht : pyStrip (row.getD i "") = t
      · have hcond : (cellPresent row i && (pyStrip (row.getD i "") == t)) = true := by
          rw [hc, Bool.true_and]
          exact beq_iff_eq.mpr ht
        simp only [List.foldl_cons, if_pos hc, ih, lookupD_bump, if_pos ht,
          List.filter_cons, hcond, if_true, List.length_cons]
        omega
      · have hcond : (cellPresent row i && (pyStrip (row.getD i "") == t)) = false := by
          rw [hc, Bool.true_and]
          exact beq_eq_false_iff_ne.mpr ht
        simp only [List.foldl_cons, if_pos hc, ih, lookupD_bump, if_neg ht,
          List.filter_cons, hcond]
        simp
    · have hc' : cellPresent row i = false := by simpa using hc
      have hcond : (cellPresent row i && (pyStrip (row.getD i "") == t)) = false := by
        rw [hc', Bool.false_and]
      simp only [List.foldl_cons, if_neg hc, ih, List.filter_cons, hcond]
      simp

theorem lookupD_subject_fold (hs : List String) (t : String) :
    ∀ (rows : List (List String)) (m : List (String × Nat)),
      lookupD (rows.foldl (fun m' row => rowSubjectStep hs m' row) m) t
        = lookupD m t + (rows.map (fun r => rowTagCount hs r t)).sum := by
  intro rows
  induction rows with
  | nil => intro m; simp
  | cons r rows ih =>
    intro m
    simp only [List.foldl_cons, List.map_cons, List.sum_cons]
    rw [ih, lookupD_rowSubjectStep]
    omega

theorem lookupD_analyze (hs : List String) (rows : List (List String)) (t : String) :
    lookupD (analyze hs rows).subject_terms t
      = (rows.map (fun r => rowTagCount hs r t)).sum := by
  have h0 : (analyze hs rows).subject_terms
      = rows.foldl (fun m row => rowSubjectStep hs m row) [] := rfl
  rw [h0, lookupD_subject_fold]
  simp [lookupD]

end CsvAnalyzer

section Claims

open CsvAnalyzer

/-- C4: `infer_type` is a pure, deterministic function from strings to
type tags (two applications to the same string agree), and on the spec's
sample inputs it returns `empty`, not-`date` for the ISO form, `date`
for the slash form, `integer`, `float`, `url` and `string`
respectively. -/
theorem C4_infer_type_values :
    (∀ s : String, infer_type s = infer_type s) ∧
    infer_type "" = "empty" ∧
    infer_type "2024-01-15" ≠ "date" ∧
    infer_type "01/15/2024" = "date" ∧
    infer_type "42" = "integer" ∧
    infer_type "42.5" = "float" ∧
    infer_type "https://example.com" = "url" ∧
    infer_type "hello" = "string" :=
  ⟨fun _ => rfl, by decide, by decide, by decide, by decide, by decide,
    by decide, by decide⟩

/-- C4 witness: the determinism clause applied at a concrete string. -/
theorem C4_infer_type_values_witness :
    infer_type "hello" = infer_type "hello" :=
  C4_infer_type_values.1 "hello"

/-- C5 counterexample: the string `1_0` is trimmed, non-empty and
matches neither the url nor the date rule, and it is not a
sign-and-digits-only integer literal, yet `infer_type` classifies it as
`integer`, because Python `int` accepts underscore digit-group
separators. -/
theorem C5_counterexample :
    pyStrip "1_0" = "1_0" ∧ "1_0" ≠ "" ∧
    (pyStartsWith "1_0" "http://" || pyStartsWith "1_0" "https://") = false ∧
    isDateLike "1_0" = false ∧
    isIntegerLiteral "1_0" = false ∧
    infer_type "1_0" = "integer" := by decide

/-- C5 (amended): for every trimmed non-empty string that matches
neither the url nor the date rule, `infer_type` returns `integer` iff
Python `int` parsing succeeds, i.e. the string is an optional leading
sign followed by decimal digits in which single underscores may stand
between digits. -/
theorem C5_integer_rule (s : String) (h1 : pyStrip s = s) (h2 : s ≠ "")
    (h3 : (pyStartsWith s "http://" || pyStartsWith s "https://") = false)
    (h4 : isDateLike s = false) :
    infer_type s = "integer" ↔ pyIntParsable s = true := by
  unfold infer_type
  rw [h1, if_neg (by simp [h2]), if_neg (by simp [h3]), if_neg (by simp [h4])]
  by_cases hp : pyIntParsable s = true
  · simp [hp]
  · rw [if_neg hp]
    simp only [hp, iff_false]
    by_cases hf : pyFloatParsable s = true <;> simp [hf]

/-- C5 witness: the amended rule applied at a concrete input. -/
theorem C5_integer_rule_witness :
    infer_type "42" = "integer" ↔ pyIntParsable "42" = true :=
  C5_integer_rule "42" (by decide) (by decide) (by decide) (by decide)

/-- C1 counterexample: in the scenario with header `A,B,B` where `B` is
the designated tag name (`billSubjectTerm` in the code) and data rows
`1,,x` and `2,y,`, the first tag column gets no generic ColumnStat slot
of its own (every occurrence of the tag name is excluded from the
relevant-column list), and the tag frequency also counts the second
row's value `y`, so the final mapping is not `{"x": 1}`. -/
theorem C1_counterexample :
    "billSubjectTerm" ∉
      (analyze ["A", "billSubjectTerm", "billSubjectTerm"]
        [["1", "", "x"], ["2", "y", ""]]).relevant_headers ∧
    lookupD
      (analyze ["A", "billSubjectTerm", "billSubjectTerm"]
        [["1", "", "x"], ["2", "y", ""]]).subject_terms "y" = 1 := by decide

/-- C1 (amended): in that scenario the relevant-column list is exactly
`A`, whose stats show total=2, filled=2, types={integer: 2}; the tag
field draws from every occurrence column of the tag name, recording
frequency {"x": 1, "y": 1} with blank occurrences excluded, and both
rows count as having at least one tag value. -/
theorem C1_scenario :
    (analyze ["A", "billSubjectTerm", "billSubjectTerm"]
        [["1", "", "x"], ["2", "y", ""]]).relevant_headers = ["A"] ∧
    (analyze ["A", "billSubjectTerm", "billSubjectTerm"]
        [["1", "", "x"], ["2", "y", ""]]).columns =
      [("A", ⟨2, 2, 0, [("integer", 2)], ["1", "2"]⟩)] ∧
    (analyze ["A", "billSubjectTerm", "billSubjectTerm"]
        [["1", "", "x"], ["2", "y", ""]]).subject_terms = [("x", 1), ("y", 1)] ∧
    lookupD
      (analyze ["A", "billSubjectTerm", "billSubjectTerm"]
        [["1", "", "x"], ["2", "y", ""]]).subject_terms "" = 0 ∧
    (analyze ["A", "billSubjectTerm", "billSubjectTerm"]
        [["1", "", "x"], ["2", "y", ""]]).bills_with_subject_terms = 2 := by decide

/-- C2: on a well-formed file with zero data rows the aggregation pass
is safe, exactly as the claim says (total_rows=0, every relevant column
all-zero and bucketed as rarely-filled), but report generation is not:
`print_report` divides `bills_with_cosponsors` and
`bills_with_subject_terms` by `total_rows` without a zero guard, so it
dies with `ZeroDivisionError` and the report is not produced. -/
theorem C2_zero_rows :
    analyzeFile ["meta1", "meta2", "meta3", "A,B"] = some (analyze ["A", "B"] []) ∧
    (analyze ["A", "B"] []).total_rows = 0 ∧
    (analyze ["A", "B"] []).columns = [("A", initStat), ("B", initStat)] ∧
    initStat.total = 0 ∧ initStat.filled = 0 ∧ initStat.empty = 0 ∧
    bucketOf initStat = Bucket.rarely ∧
    print_report (analyze ["A", "B"] []) = none := by decide

/-- C9: a missing input path makes the driver exit with code 1 and a
diagnostic naming the path, with no report output; every failure of the
analysis pass exits 1 with no report output; and report output only ever
starts after the analysis pass has completed successfully. -/
theorem C9_failure_handling (fs : String → Option (List String)) (path : String) :
    (fs path = none → runMain fs path = ⟨1, some path, false⟩) ∧
    (∀ lines, fs path = some lines → analyzeFile lines = none →
      runMain fs path = ⟨1, none, false⟩) ∧
    (∀ lines, fs path = some lines → (runMain fs path).reportStarted = true →
      ∃ a, analyzeFile lines = some a) := by
  refine ⟨fun h => ?_, fun lines h ha => ?_, fun lines h hr => ?_⟩
  · simp only [runMain, h]
  · simp only [runMain, h, ha]
  · simp only [runMain, h] at hr
    cases hha : analyzeFile lines with
    | none => rw [hha] at hr; exact absurd hr (by decide)
    | some a => exact ⟨a, rfl⟩

/-- C9 witness: the missing-path clause applied to a file system without
the requested path. -/
theorem C9_failure_handling_witness :
    runMain (fun _ => none) "missing.csv" = ⟨1, some "missing.csv", false⟩ :=
  (C9_failure_handling (fun _ => none) "missing.csv").1 rfl

/-- C10: in the storage wrapper's `_infer_type`, null and boolean
recognition precede numeric parsing: the empty string and the
case-insensitive tokens null/none/nil coerce to null, the
case-insensitive tokens true/yes/1 coerce to the boolean true, and
false/no/0 to the boolean false — in particular `0` and `1` are
booleans, never integers. -/
theorem C10_coercion_precedence :
    N8n.infer_type "" = N8n.PyVal.nullV ∧
    (∀ s : String,
      lowerStr s = "null" ∨ lowerStr s = "none" ∨ lowerStr s = "nil" →
      N8n.infer_type s = N8n.PyVal.nullV) ∧
    (∀ s : String,
      lowerStr s = "true" ∨ lowerStr s = "yes" ∨ lowerStr s = "1" →
      N8n.infer_type s = N8n.PyVal.boolV true) ∧
    (∀ s : String,
      lowerStr s = "false" ∨ lowerStr s = "no" ∨ lowerStr s = "0" →
      N8n.infer_type s = N8n.PyVal.boolV false) := by
  refine ⟨by decide, fun s h => ?_, fun s h => ?_, fun s h => ?_⟩
  · have hs : s ≠ "" := by rintro rfl; revert h; decide
    unfold N8n.infer_type
    rw [if_neg hs, if_pos h]
  · have hs : s ≠ "" := by rintro rfl; revert h; decide
    have hnull : ¬(lowerStr s = "null" ∨ lowerStr s = "none" ∨ lowerStr s = "nil") := by
      rcases h with h | h | h <;> rw [h] <;> decide
    unfold N8n.infer_type
    rw [if_neg hs, if_neg hnull, if_pos h]
  · have hs : s ≠ "" := by rintro rfl; revert h; decide
    have hnull : ¬(lowerStr s = "null" ∨ lowerStr s = "none" ∨ lowerStr s = "nil") := by
      rcases h with h | h | h <;> rw [h] <;> decide
    have htrue : ¬(lowerStr s = "true" ∨ lowerStr s = "yes" ∨ lowerStr s = "1") := by
      rcases h with h | h | h <;> rw [h] <;> decide
    unfold N8n.infer_type
    rw [if_neg hs, if_neg hnull, if_neg htrue, if_pos h]

/-- C10 witness: the boolean clause applied at a concrete
mixed-case input. -/
theorem C10_coercion_precedence_witness :
    N8n.infer_type "TRUE" = N8n.PyVal.boolV true :=
  C10_coercion_precedence.2.2.1 "TRUE" (Or.inl (by decide))

/-- C3: after the single pass over any input, every relevant column's
record satisfies filled + empty = total, total equals the number of data
rows processed, and the values of the types histogram (the `empty` tag
included) sum to total. -/
theorem C3_stats_invariants (hs : List String) (rows : List (List String))
    (p : String × ColumnStat) (hp : p ∈ (analyze hs rows).columns) :
    p.2.filled + p.2.empty = p.2.total ∧
    p.2.total = rows.length ∧
    typesTotal p.2.types = p.2.total := by
  have hkey : p.2 = rows.foldl (fun a row => stepStat a (cellFor hs row p.1)) initStat := by
    rw [analyze_columns] at hp
    obtain ⟨c, hc, he⟩ := List.mem_map.1 hp
    subst he
    rfl
  rw [hkey]
  obtain ⟨h1, h2, h3⟩ := colStat_inv hs p.1 rows initStat
  simp only [show initStat.total = 0 from rfl, show initStat.filled = 0 from rfl,
    show initStat.empty = 0 from rfl, show typesTotal initStat.types = 0 from rfl]
    at h1 h2 h3
  exact ⟨by omega, by omega, by omega⟩

/-- C3 witness: the invariant applied to the single column of a concrete
one-row analysis. -/
theorem C3_stats_invariants_witness :
    (("A", (⟨1, 1, 0, [("integer", 1)], ["1"]⟩ : ColumnStat)) : String × ColumnStat).2.filled
        + (("A", (⟨1, 1, 0, [("integer", 1)], ["1"]⟩ : ColumnStat)) : String × ColumnStat).2.empty
      = (("A", (⟨1, 1, 0, [("integer", 1)], ["1"]⟩ : ColumnStat)) : String × ColumnStat).2.total :=
  (C3_stats_invariants ["A"] [["1"]] ("A", ⟨1, 1, 0, [("integer", 1)], ["1"]⟩)
    (by decide)).1

/-- C7: after processing any input, every relevant column's sample list
has at most 3 entries, holds no duplicate verbatim values, and every
stored sample is the truncation (cell value itself when at most 80
characters, else the first 80 characters plus the `...` marker) of that
column's cell in some processed row. -/
theorem C7_sample_invariants (hs : List String) (rows : List (List String))
    (p : String × ColumnStat) (hp : p ∈ (analyze hs rows).columns) :
    p.2.sample_values.length ≤ 3 ∧ p.2.sample_values.Nodup ∧
    ∀ s ∈ p.2.sample_values, ∃ r ∈ rows, s = truncateSample (cellFor hs r p.1) := by
  rw [analyze_columns] at hp
  obtain ⟨c, hc, rfl⟩ := List.mem_map.1 hp
  exact samples_fold_inv hs c
    (fun s => ∃ r ∈ rows, s = truncateSample (cellFor hs r c)) rows initStat
    (fun r hr => ⟨r, hr, rfl⟩) (by simp [initStat]) (by simp [initStat])
    (by simp [initStat])

/-- C7 witness: the sample invariant applied to the single column of a
concrete one-row analysis. -/
theorem C7_sample_invariants_witness :
    (("A", (⟨1, 1, 0, [("integer", 1)], ["1"]⟩ : ColumnStat)) :
        String × ColumnStat).2.sample_values.length ≤ 3 :=
  (C7_sample_invariants ["A"] [["1"]] ("A", ⟨1, 1, 0, [("integer", 1)], ["1"]⟩)
    (by decide)).1

/-- C8: the final tag-frequency mapping is order-independent — permuting
the data rows leaves every tag's final count unchanged — and each tag's
count equals the number of (row, occurrence-column) pairs in which that
trimmed value appears non-empty, counting a row twice when it carries
the value in two occurrence columns. -/
theorem C8_tag_frequency (hs : List String) (rows rows' : List (List String))
    (t : String) (hperm : rows.Perm rows') :
    lookupD (analyze hs rows).subject_terms t
        = lookupD (analyze hs rows').subject_terms t ∧
    lookupD (analyze hs rows).subject_terms t
        = (rows.map (fun r => rowTagCount hs r t)).sum := by
  refine ⟨?_, lookupD_analyze hs rows t⟩
  rw [lookupD_analyze, lookupD_analyze]
  exact (hperm.map _).sum_eq

/-- C8 witness: the permutation clause applied to a concrete two-row
input and its swap. -/
theorem C8_tag_frequency_witness :
    lookupD (analyze ["billSubjectTerm", "billSubjectTerm"]
        [["x", ""], ["", "y"]]).subject_terms "x"
      = lookupD (analyze ["billSubjectTerm", "billSubjectTerm"]
        [["", "y"], ["x", ""]]).subject_terms "x" :=
  (C8_tag_frequency ["billSubjectTerm", "billSubjectTerm"]
    [["x", ""], ["", "y"]] [["", "y"], ["x", ""]] "x"
    (List.Perm.swap _ _ _)).1

/-- C6: fill-rate bucketing is a total, non-overlapping partition of the
relevant columns: every column record (with filled at most total, as the
pass guarantees) lands in exactly one bucket, routed by fill-rate —
exactly 100 percent to always-filled, at least 90 and below 100 to
mostly-filled, at least 50 and below 90 to sometimes-filled, below 50 to
rarely-filled — and a column with total = 0 has fill-rate 0 and lands in
rarely-filled. -/
theorem C6_bucketing (st : ColumnStat) (h : st.filled ≤ st.total) :
    (bucketOf st = Bucket.always ∨ bucketOf st = Bucket.mostly ∨
      bucketOf st = Bucket.sometimes ∨ bucketOf st = Bucket.rarely) ∧
    (bucketOf st = Bucket.always ↔ fill_rate st = 100) ∧
    (bucketOf st = Bucket.mostly ↔ 90 ≤ fill_rate st ∧ fill_rate st < 100) ∧
    (bucketOf st = Bucket.sometimes ↔ 50 ≤ fill_rate st ∧ fill_rate st < 90) ∧
    (bucketOf st = Bucket.rarely ↔ fill_rate st < 50) ∧
    (st.total = 0 → bucketOf st = Bucket.rarely) := by
  have hle : fill_rate st ≤ 100 := by
    unfold fill_rate
    split
    · rename_i ht
      have ht' : (0 : ℚ) < (st.total : ℚ) := by exact_mod_cast ht
      rw [div_mul_eq_mul_div, div_le_iff₀ ht']
      have hfc : (st.filled : ℚ) ≤ (st.total : ℚ) := by exact_mod_cast h
      nlinarith
    · norm_num
  have hz : st.total = 0 → fill_rate st = 0 := by
    intro h0
    unfold fill_rate
    rw [if_neg (by omega)]
  by_cases h1 : fill_rate st = 100
  · have hb : bucketOf st = Bucket.always := by unfold bucketOf; rw [if_pos h1]
    rw [hb]
    refine ⟨Or.inl rfl, ?_, ?_, ?_, ?_, fun h0 => ?_⟩
    · simp [h1]
    · constructor
      · intro hc; exact absurd hc (by decide)
      · rintro ⟨-, hlt⟩; rw [h1] at hlt; exact absurd hlt (by norm_num)
    · constructor
      · intro hc; exact absurd hc (by decide)
      · rintro ⟨-, hlt⟩; rw [h1] at hlt; exact absurd hlt (by norm_num)
    · constructor
      · intro hc; exact absurd hc (by decide)
      · intro hlt; rw [h1] at hlt; exact absurd hlt (by norm_num)
    · exfalso; rw [hz h0] at h1; exact absurd h1 (by norm_num)
  · by_cases h2 : 90 ≤ fill_rate st
    · have hlt100 : fill_rate st < 100 := lt_of_le_of_ne hle h1
      have hb : bucketOf st = Bucket.mostly := by
        unfold bucketOf; rw [if_neg h1, if_pos h2]
      rw [hb]
      refine ⟨Or.inr (Or.inl rfl), ?_, ?_, ?_, ?_, fun h0 => ?_⟩
      · constructor
        · intro hc; exact absurd hc (by decide)
        · intro hc; exact absurd hc h1
      · simp [h2, hlt100]
      · constructor
        · intro hc; exact absurd hc (by decide)
        · rintro ⟨-, hlt⟩; exact absurd h2 (not_le.2 hlt)
      · constructor
        · intro hc; exact absurd hc (by decide)
        · intro hlt
          exact absurd h2 (not_le.2 (lt_of_lt_of_le hlt (by norm_num)))
      · exfalso; rw [hz h0] at h2; exact absurd h2 (by norm_num)
    · by_cases h3 : 50 ≤ fill_rate st
      · have hlt90 : fill_rate st < 90 := not_le.1 h2
        have hb : bucketOf st = Bucket.sometimes := by
          unfold bucketOf; rw [if_neg h1, if_neg h2, if_pos h3]
        rw [hb]
        refine ⟨Or.inr (Or.inr (Or.inl rfl)), ?_, ?_, ?_, ?_, fun h0 => ?_⟩
        · constructor
          · intro hc; exact absurd hc (by decide)
          · intro hc; exact absurd hc h1
        · constructor
          · intro hc; exact absurd hc (by decide)
          · rintro ⟨hge, -⟩; exact absurd hge h2
        · simp [h3, hlt90]
        · constructor
          · intro hc; exact absurd hc (by decide)
          · intro hlt; exact absurd h3 (not_le.2 hlt)
        · exfalso; rw [hz h0] at h3; exact absurd h3 (by norm_num)
      · have hlt50 : fill_rate st < 50 := not_le.1 h3
        have hb : bucketOf st = Bucket.rarely := by
          unfold bucketOf; rw [if_neg h1, if_neg h2, if_neg h3]
        rw [hb]
        refine ⟨Or.inr (Or.inr (Or.inr rfl)), ?_, ?_, ?_, ?_, fun h0 => rfl⟩
        · constructor
          · intro hc; exact absurd hc (by decide)
          · intro hc; exact absurd hc h1
        · constructor
          · intro hc; exact absurd hc (by decide)
          · rintro ⟨hge, -⟩; exact absurd hge h2
        · constructor
          · intro hc; exact absurd hc (by decide)
          · rintro ⟨hge, -⟩; exact absurd hge h3
        · simp [hlt50]

/-- C6 witness: the sometimes-filled clause applied to a concrete
half-filled column. -/
theorem C6_bucketing_witness :
    bucketOf (⟨2, 1, 1, [], []⟩ : ColumnStat) = Bucket.sometimes :=
  (C6_bucketing ⟨2, 1, 1, [], []⟩ (by decide)).2.2.2.1.mpr
    (by norm_num [fill_rate])

end Claims
